import Mathlib

/-!
Verification development for the fitness intake bot
(`src/database.py`, `src/handlers.py`, `src/main.py`).

The relevant tables (`promo_codes`, `promo_code_usage`, `users`,
`questionnaires`, `link_stats`) are embedded as Lean lists of rows, and the
database / handler functions are translated statement by statement into pure
Lean functions on those lists.  SQL `NULL` is `Option.none`.  Timestamps are
abstracted as opaque strings (they influence no checked behaviour except the
text of the notification date line).  Each section names the Python function
it embeds.
-/

namespace Fitness

/-- Row of the `promo_codes` table (`database.py`, `init_db`).
`description` is a nullable TEXT column. -/
structure PromoCode where
  id : Nat
  code : String
  description : Option String
  is_single_use : Bool
deriving DecidableEq, Repr

/-- Row of the `promo_code_usage` table (`database.py`, `init_db`).
`questionnaire_id` is nullable: `none` means "redeemed but not yet attached
to any questionnaire".  The table has no unique constraint other than the
serial primary key (the `idx_promo_usage_user_promo` index is non-unique),
so plain inserts model the SQL inserts and the `ON CONFLICT DO NOTHING`
clause in `attach_user_promo_codes_to_questionnaire` can never fire. -/
structure Usage where
  user_id : Nat
  promo_code_id : Nat
  questionnaire_id : Option Nat
deriving DecidableEq, Repr

/-- `SELECT * FROM promo_code_usage WHERE promo_code_id = $1 AND
questionnaire_id IS NOT NULL` returned a row (truthiness of `fetchrow`),
as used by the single-use re-check in
`attach_user_promo_codes_to_questionnaire` (`database.py`). -/
def hasAttachedRow (us : List Usage) (pid : Nat) : Bool :=
  us.any fun u => u.promo_code_id == pid && u.questionnaire_id.isSome

/-- `SELECT * FROM promo_code_usage WHERE promo_code_id = $1` returned a row,
as used by the single-use check in `process_promo_code` (`handlers.py`).
Note: unlike `hasAttachedRow` this does NOT require a non-null
`questionnaire_id`. -/
def hasAnyRow (us : List Usage) (pid : Nat) : Bool :=
  us.any fun u => u.promo_code_id == pid

/-- `SELECT * FROM promo_code_usage WHERE user_id = $1 AND promo_code_id = $2
AND questionnaire_id IS NULL` returned a row (`process_promo_code`,
`handlers.py`). -/
def hasPendingRow (us : List Usage) (uid pid : Nat) : Bool :=
  us.any fun u =>
    u.user_id == uid && u.promo_code_id == pid && u.questionnaire_id == none

/-- The first query of `attach_user_promo_codes_to_questionnaire`
(`database.py`): the user's usage rows with `questionnaire_id IS NULL`,
joined to `promo_codes`, projected to `(promo_code_id, is_single_use)`.
An inner JOIN drops rows whose promo code id has no `promo_codes` row. -/
def pendingPairs (promos : List PromoCode) (us : List Usage) (uid : Nat) :
    List (Nat × Bool) :=
  us.filterMap fun u =>
    if u.user_id = uid ∧ u.questionnaire_id = none then
      (promos.find? fun pc => pc.id == u.promo_code_id).map
        fun pc => (u.promo_code_id, pc.is_single_use)
    else none

/-- The `for usage in promo_usages` loop of
`attach_user_promo_codes_to_questionnaire` (`database.py`): for each pending
`(promo_code_id, is_single_use)` pair, skip single-use codes that already
have a row attached to some questionnaire (checked against the live,
evolving table), otherwise insert `(user_id, promo_code_id,
questionnaire_id)` and bump `attached_count`. -/
def attachLoop (uid qid : Nat) :
    List (Nat × Bool) → List Usage → Nat → List Usage × Nat
  | [], us, cnt => (us, cnt)
  | (pid, su) :: rest, us, cnt =>
    if su && hasAttachedRow us pid then
      attachLoop uid qid rest us cnt
    else
      attachLoop uid qid rest (us ++ [⟨uid, pid, some qid⟩]) (cnt + 1)

/-- `attach_user_promo_codes_to_questionnaire` (`database.py`), as a function
of the `promo_codes` and `promo_code_usage` tables.  Returns the updated
usage table and `attached_count`. -/
def attachEffect (promos : List PromoCode) (us : List Usage) (uid qid : Nat) :
    List Usage × Nat :=
  attachLoop uid qid (pendingPairs promos us uid) us 0

/-- A single `INSERT INTO promo_code_usage ...` that may raise: `oracle i`
says whether the `i`-th insert attempt of the enclosing call fails (any
`asyncpg` error).  A failed statement inserts nothing. -/
def insertUsageF (oracle : Nat → Bool) (i : Nat) (us : List Usage)
    (row : Usage) : Except Unit (List Usage) :=
  if oracle i then Except.error () else Except.ok (us ++ [row])

/-- The attach loop with fallible inserts, also returning the `logger`
records the call emits.  The `try/except: pass` of
`attach_user_promo_codes_to_questionnaire` is the `Except.error` branch:
the failure is swallowed, `attached_count` is not bumped, and the loop
continues.  Errors raised anywhere else would propagate as
`Except.error`.  The function body contains no `logger` call at all — in
particular the bare `except: pass` branch emits nothing — so no branch
ever appends a log record. -/
def attachLoopF (oracle : Nat → Bool) (uid qid : Nat) :
    List (Nat × Bool) → List Usage → Nat → Nat →
      Except Unit (List Usage × Nat × List String)
  | [], us, cnt, _ => Except.ok (us, cnt, [])
  | (pid, su) :: rest, us, cnt, i =>
    if su && hasAttachedRow us pid then
      attachLoopF oracle uid qid rest us cnt i
    else
      match insertUsageF oracle i us ⟨uid, pid, some qid⟩ with
      | Except.ok us' => attachLoopF oracle uid qid rest us' (cnt + 1) (i + 1)
      | Except.error _ => attachLoopF oracle uid qid rest us cnt (i + 1)

/-- `attach_user_promo_codes_to_questionnaire` with fallible inserts;
the result carries the updated table, `attached_count`, and the emitted
log records. -/
def attachEffectF (oracle : Nat → Bool) (promos : List PromoCode)
    (us : List Usage) (uid qid : Nat) :
    Except Unit (List Usage × Nat × List String) :=
  attachLoopF oracle uid qid (pendingPairs promos us uid) us 0 0

/-- Messages `process_promo_code` (`handlers.py`) can answer with:
code not found, single-use code already used, or success carrying the
upper-cased entered code and the promo description. -/
inductive Reply where
  | notFound : Reply
  | alreadyUsed : Reply
  | applied : String → Option String → Reply
deriving DecidableEq, Repr

/-- Python `str.strip()` / the whitespace stripping of the numeric
parsers: drop whitespace from both ends (structural version of
`String.trim`). -/
def pyStrip (s : String) : String :=
  String.mk (((s.data.dropWhile Char.isWhitespace).reverse.dropWhile
    Char.isWhitespace).reverse)

/-- Python `str.upper()` / SQL `UPPER` (structural version of
`String.toUpper`). -/
def pyUpper (s : String) : String :=
  String.mk (s.data.map Char.toUpper)

/-- `check_promo_code` (`database.py`): case-insensitive lookup,
`WHERE UPPER(code) = UPPER($1)`. -/
def check_promo_code (promos : List PromoCode) (txt : String) :
    Option PromoCode :=
  promos.find? fun pc => pyUpper pc.code == pyUpper txt

/-- `process_promo_code` (`handlers.py`), acting on the usage table.
For a single-use code the guard is
`SELECT * FROM promo_code_usage WHERE promo_code_id = $1` —
any row at all, pending or attached.  Otherwise a pending row is inserted
unless the same user already holds one for this code. -/
def process_promo_code (promos : List PromoCode) (us : List Usage)
    (uid : Nat) (txt : String) : List Usage × Reply :=
  let code := pyStrip txt
  match check_promo_code promos code with
  | none => (us, Reply.notFound)
  | some promo =>
    if promo.is_single_use && hasAnyRow us promo.id then
      (us, Reply.alreadyUsed)
    else
      let us' :=
        if hasPendingRow us uid promo.id then us
        else us ++ [⟨uid, promo.id, none⟩]
      (us', Reply.applied (pyUpper code) promo.description)

/-! ## Python numeric parsing, as used by the questionnaire handlers

`process_age` / `process_workouts` call `int(message.text)` and
`process_weight` calls `float(message.text.replace(",", "."))`, catching
`ValueError`.  These are modelled by `pyInt` / `pyFloat` below: surrounding
whitespace is stripped, an optional sign is allowed, `int` accepts a plain
digit run, and `float` additionally accepts a decimal point, an exponent
part, and the special spellings `nan` / `inf` / `infinity`
(case-insensitive).  Finite values are modelled as exact rationals
(ignoring IEEE rounding); `nan` and the infinities are separate
constructors because Python's comparison operators treat them specially.
Digit-group underscores are not modelled. -/

/-- The value of a Python `float`: `nan`, `±inf`, or a finite value
(modelled exactly as a rational). -/
inductive PFloat where
  | nan : PFloat
  | inf : PFloat
  | ninf : PFloat
  | val : ℚ → PFloat
deriving DecidableEq, Repr

/-- Python `<` on floats: comparisons involving `nan` are always `False`. -/
def PFloat.lt : PFloat → PFloat → Bool
  | .val a, .val b => decide (a < b)
  | .val _, .inf => true
  | .val _, .ninf => false
  | .val _, .nan => false
  | .inf, _ => false
  | .ninf, .ninf => false
  | .ninf, .nan => false
  | .ninf, _ => true
  | .nan, _ => false

/-- Optional leading sign; returns (isNegative, rest). -/
def parseSign : List Char → Bool × List Char
  | '-' :: r => (true, r)
  | '+' :: r => (false, r)
  | cs => (false, cs)

/-- Value of a digit run. -/
def digitsToNat (acc : Nat) : List Char → Nat
  | [] => acc
  | c :: r => digitsToNat (acc * 10 + (c.toNat - '0'.toNat)) r

/-- Python `int(s)` on the stripped character list: optional sign followed
by a nonempty digit run and nothing else. -/
def pyIntCore (cs : List Char) : Option Int :=
  let (neg, r) := parseSign cs
  let (ds, rest) := r.span Char.isDigit
  if ds = [] ∨ rest ≠ [] then none
  else some (if neg then -(digitsToNat 0 ds : Int) else (digitsToNat 0 ds : Int))

/-- Python `int(s)` (whitespace stripped like the CPython parser). -/
def pyInt (s : String) : Option Int :=
  pyIntCore (pyStrip s).data

/-- Mantissa of a float literal: `digits`, `digits.digits`, `digits.` or
`.digits` (at least one digit overall); returns the digit string read as
one integer, the number of fractional digits, and the rest. -/
def parseMantissa (cs : List Char) : Option (Nat × Nat × List Char) :=
  let (ip, r1) := cs.span Char.isDigit
  match r1 with
  | '.' :: r2 =>
    let (fp, r3) := r2.span Char.isDigit
    if ip = [] ∧ fp = [] then none
    else some (digitsToNat 0 (ip ++ fp), fp.length, r3)
  | _ => if ip = [] then none else some (digitsToNat 0 ip, 0, r1)

/-- Optional exponent part `e±digits` closing the literal; `0` when
absent. -/
def parseExpVal : List Char → Option Int
  | [] => some 0
  | c :: r =>
    if c = 'e' ∨ c = 'E' then
      let (neg, r2) := parseSign r
      let (ds, rest) := r2.span Char.isDigit
      if ds = [] ∨ rest ≠ [] then none
      else some (if neg then -(digitsToNat 0 ds : Int) else (digitsToNat 0 ds : Int))
    else none

/-- The exact value `±digits × 10 ^ (e − fracLen)` of a float literal, as
a rational (built with `mkRat` so that it is in normal form). -/
def decimalValue (neg : Bool) (digits fracLen : Nat) (e : Int) : ℚ :=
  let shift : Int := e - (fracLen : Int)
  let n : Int := if neg then -(digits : Int) else (digits : Int)
  if 0 ≤ shift then mkRat (n * ((10 ^ shift.toNat : Nat) : Int)) 1
  else mkRat n (10 ^ (-shift).toNat)

/-- Python `float(s)` on the stripped character list. -/
def pyFloatCore (cs : List Char) : Option PFloat :=
  let (neg, r) := parseSign cs
  let low := r.map Char.toLower
  if low = "nan".data then some PFloat.nan
  else if low = "inf".data ∨ low = "infinity".data then
    some (if neg then PFloat.ninf else PFloat.inf)
  else
    match parseMantissa r with
    | none => none
    | some (digits, fracLen, rest) =>
      match parseExpVal rest with
      | none => none
      | some e => some (PFloat.val (decimalValue neg digits fracLen e))

/-- Python `float(s)` (whitespace stripped like the CPython parser). -/
def pyFloat (s : String) : Option PFloat :=
  pyFloatCore (pyStrip s).data

/-- `message.text.replace(",", ".")` from `process_weight`. -/
def pyReplaceCommaDot (s : String) : String :=
  String.mk (s.data.map fun c => if c = ',' then '.' else c)

/-! ## The questionnaire conversation state (`handlers.py`)

`QuestionnaireStates` and the per-user FSM data bag kept by
`state.update_data`.  The handlers below fire only in their respective
state (aiogram router filter); each returns the updated session and the
text it answers with. -/

/-- `QuestionnaireStates` (`handlers.py`). -/
inductive QState where
  | waiting_gender
  | waiting_age
  | waiting_weight
  | waiting_workouts
  | waiting_diet
  | waiting_problem
deriving DecidableEq, Repr

/-- The FSM data bag accumulated by `state.update_data`. -/
structure SessionData where
  gender : Option String := none
  age : Option Int := none
  weight : Option PFloat := none
  workouts_per_week : Option Int := none
  diet : Option String := none
  problem_or_injury : Option String := none
deriving DecidableEq, Repr

/-- One user's conversation session: current FSM state plus data bag. -/
structure Session where
  state : QState
  data : SessionData
deriving DecidableEq, Repr

/-- `process_age` (`handlers.py`): parse `int`, require `1 ≤ age ≤ 150`,
else re-prompt leaving the session untouched. -/
def process_age (sess : Session) (txt : String) : Session × String :=
  match pyInt txt with
  | none => (sess, "Пожалуйста, введите число:")
  | some age =>
    if age < 1 ∨ age > 150 then
      (sess, "Пожалуйста, введите корректный возраст (от 1 до 150):")
    else
      (⟨QState.waiting_weight, { sess.data with age := some age }⟩,
       "Укажите ваш вес в килограммах (например, 75.5):")

/-- `process_weight` (`handlers.py`): replace commas by dots, parse `float`,
reject when `weight < 1 or weight > 500` (Python float comparisons), else
re-prompt leaving the session untouched. -/
def process_weight (sess : Session) (txt : String) : Session × String :=
  match pyFloat (pyReplaceCommaDot txt) with
  | none => (sess, "Пожалуйста, введите число (можно с десятичной точкой):")
  | some w =>
    if PFloat.lt w (PFloat.val 1) || PFloat.lt (PFloat.val 500) w then
      (sess, "Пожалуйста, введите корректный вес (от 1 до 500 кг):")
    else
      (⟨QState.waiting_workouts, { sess.data with weight := some w }⟩,
       "Сколько тренировок в неделю вы хотите? (введите число):")

/-- `process_workouts` (`handlers.py`): parse `int`, require
`1 ≤ workouts ≤ 7`, else re-prompt leaving the session untouched. -/
def process_workouts (sess : Session) (txt : String) : Session × String :=
  match pyInt txt with
  | none => (sess, "Пожалуйста, введите число:")
  | some w =>
    if w < 1 ∨ w > 7 then
      (sess, "Пожалуйста, введите число от 1 до 7:")
    else
      (⟨QState.waiting_diet, { sess.data with workouts_per_week := some w }⟩,
       "Опишите ваш текущий рацион питания (можно пропустить):")

/-! ## The durable store (`database.py`) and the completion / sweep
pipelines (`handlers.py`, `main.py`) -/

/-- Row of the `users` table. -/
structure UserRow where
  user_id : Nat
  username : Option String
  first_name : Option String
  utm_source : Option String
  utm_medium : Option String
  utm_campaign : Option String
deriving DecidableEq, Repr

/-- Row of the `questionnaires` table.  `created_at` is abstracted as an
opaque string (its only checked use is the date line of the notification
text). -/
structure QRow where
  id : Nat
  user_id : Nat
  gender : Option String
  age : Option Int
  weight : Option PFloat
  workouts_per_week : Option Int
  diet : Option String
  problem_or_injury : Option String
  created_at : Option String
  sent_to_admin : Bool
deriving DecidableEq, Repr

/-- Row of the `link_stats` table. -/
structure LinkStat where
  utm_source : Option String
  utm_medium : Option String
  utm_campaign : Option String
  user_id : Nat
deriving DecidableEq, Repr

/-- The database: the tables the verified claims touch, plus the next value
of the `questionnaires.id` sequence. -/
structure DB where
  users : List UserRow
  questionnaires : List QRow
  promo_codes : List PromoCode
  promo_code_usage : List Usage
  link_stats : List LinkStat
  next_qid : Nat
deriving DecidableEq, Repr

/-- Python truthiness of an optional string (NULL and `""` are falsy). -/
def pyTruthyStr : Option String → Bool
  | none => false
  | some s => s ≠ ""

/-- Python `x or default` for an optional string. -/
def pyOrStr (o : Option String) (dflt : String) : String :=
  if pyTruthyStr o then o.getD dflt else dflt

/-- Python truthiness of an optional integer (NULL and 0 are falsy). -/
def pyTruthyInt : Option Int → Bool
  | none => false
  | some n => n ≠ 0

/-- Python truthiness of an optional float (NULL and 0.0 are falsy;
`nan` and infinities are truthy). -/
def pyTruthyFloat : Option PFloat → Bool
  | none => false
  | some w => w ≠ PFloat.val 0

/-- `get_or_create_user` (`database.py`).  Looks the user up; when absent,
inserts the row with the attribution tags, records `link_stats` when any
tag is truthy, and re-reads the row.  Returns `(db, user, created)`. -/
def get_or_create_user (db : DB) (uid : Nat)
    (username first_name utm_source utm_medium utm_campaign : Option String) :
    DB × UserRow × Bool :=
  match db.users.find? fun u => u.user_id == uid with
  | some u => (db, u, false)
  | none =>
    let row : UserRow := ⟨uid, username, first_name, utm_source, utm_medium, utm_campaign⟩
    let db1 := { db with users := db.users ++ [row] }
    let db2 :=
      if pyTruthyStr utm_source || pyTruthyStr utm_medium || pyTruthyStr utm_campaign then
        { db1 with link_stats := db1.link_stats ++ [⟨utm_source, utm_medium, utm_campaign, uid⟩] }
      else db1
    (db2, row, true)

/-- `create_questionnaire` (`database.py`): insert with the serial id and
`sent_to_admin = FALSE`, returning the new id.  `now` stands for the
`CURRENT_TIMESTAMP` default. -/
def create_questionnaire (db : DB) (uid : Nat) (d : SessionData) (now : String) :
    DB × Nat :=
  let qid := db.next_qid
  let row : QRow := ⟨qid, uid, d.gender, d.age, d.weight, d.workouts_per_week,
                     d.diet, d.problem_or_injury, some now, false⟩
  ({ db with questionnaires := db.questionnaires ++ [row], next_qid := qid + 1 }, qid)

/-- `attach_user_promo_codes_to_questionnaire` at the database level. -/
def attachDB (db : DB) (uid qid : Nat) : DB × Nat :=
  let r := attachEffect db.promo_codes db.promo_code_usage uid qid
  ({ db with promo_code_usage := r.1 }, r.2)

/-- `mark_questionnaires_sent` (`database.py`): one `UPDATE` setting
`sent_to_admin = TRUE` for every id in the batch. -/
def mark_questionnaires_sent (db : DB) (ids : List Nat) : DB :=
  { db with questionnaires := db.questionnaires.map fun q =>
      if q.id ∈ ids then { q with sent_to_admin := true } else q }

/-- `ARRAY_AGG(pc.code)` over the usage rows of one questionnaire
(`get_questionnaire_details` / `get_new_questionnaires`, `database.py`).
With no usage rows the LEFT JOIN produces a single all-NULL row, so the
aggregate is `[NULL]`; otherwise one (possibly NULL) code per usage row. -/
def codesFor (db : DB) (qid : Nat) : List (Option String) :=
  let rows := db.promo_code_usage.filter fun u => u.questionnaire_id == some qid
  if rows = [] then [none]
  else rows.map fun u => (db.promo_codes.find? fun pc => pc.id == u.promo_code_id).map (·.code)

/-- One row of `get_questionnaire_details` / `get_new_questionnaires`:
the questionnaire joined to its user and aggregated promo codes. -/
structure QDetails where
  row : QRow
  username : Option String
  first_name : Option String
  promo_codes : List (Option String)
deriving DecidableEq, Repr

/-- `get_questionnaire_details` (`database.py`): the questionnaire by id,
inner-joined to `users`, with aggregated codes. -/
def get_questionnaire_details (db : DB) (qid : Nat) : Option QDetails :=
  match db.questionnaires.find? fun q => q.id == qid with
  | none => none
  | some q =>
    match db.users.find? fun u => u.user_id == q.user_id with
    | none => none
    | some u => some ⟨q, u.username, u.first_name, codesFor db qid⟩

/-- `get_new_questionnaires` (`database.py`): every questionnaire with
`sent_to_admin = FALSE`, inner-joined to `users`, with aggregated codes.
`ORDER BY created_at DESC` is modelled as reversed insertion order
(timestamps increase with insertion). -/
def get_new_questionnaires (db : DB) : List QDetails :=
  ((db.questionnaires.filter fun q => !q.sent_to_admin).reverse).filterMap fun q =>
    (db.users.find? fun u => u.user_id == q.user_id).map fun u =>
      ⟨q, u.username, u.first_name, codesFor db q.id⟩

/-- The Python list comprehension `[pc for pc in promo_codes if pc]`:
drop NULLs and empty strings. -/
def truthyCodes (pcs : List (Option String)) : List String :=
  pcs.filterMap fun o => if pyTruthyStr o then o else none

/-- Crude rendering of a float for the message text (`f"{weight}"`).
Exact decimal formatting is immaterial to every claim. -/
def pfloatText : PFloat → String
  | PFloat.nan => "nan"
  | PFloat.inf => "inf"
  | PFloat.ninf => "-inf"
  | PFloat.val q => toString q

/-- The header of `build_questionnaire_text` (`handlers.py`): title, user
display name (with `or 'Не указано'` fallback), optional handle, user id. -/
def headerText (d : QDetails) : String :=
  "📋 Новая анкета:\n\n" ++ "👤 Пользователь: " ++ pyOrStr d.first_name "Не указано"
    ++ (if pyTruthyStr d.username then " (@" ++ d.username.getD "" ++ ")" else "")
    ++ "\nID: " ++ toString d.row.user_id ++ "\n\n"

/-- The answered-field lines of `build_questionnaire_text`: each line is
emitted only when the field is truthy. -/
def fieldsText (q : QRow) : String :=
  (if pyTruthyStr q.gender then "Пол: " ++ q.gender.getD "" ++ "\n" else "")
  ++ (if pyTruthyInt q.age then "Возраст: " ++ toString (q.age.getD 0) ++ "\n" else "")
  ++ (if pyTruthyFloat q.weight then "Вес: " ++ pfloatText (q.weight.getD (PFloat.val 0)) ++ " кг\n" else "")
  ++ (if pyTruthyInt q.workouts_per_week then "Тренировок в неделю: " ++ toString (q.workouts_per_week.getD 0) ++ "\n" else "")
  ++ (if pyTruthyStr q.diet then "Рацион: " ++ q.diet.getD "" ++ "\n" else "")
  ++ (if pyTruthyStr q.problem_or_injury then "Проблемы/травмы: " ++ q.problem_or_injury.getD "" ++ "\n" else "")

/-- The promo-code line of `build_questionnaire_text`: emitted when the
aggregated list is nonempty and its first element is truthy
(`if promo_codes and promo_codes[0]:`). -/
def promoSection (pcs : List (Option String)) : String :=
  match pcs with
  | [] => ""
  | c :: _ =>
    if pyTruthyStr c then
      "\nПромокоды: " ++ String.intercalate ", " (truthyCodes pcs) ++ "\n"
    else ""

/-- The date line of `build_questionnaire_text` (timestamp formatting
abstracted to the opaque stored string). -/
def dateText : Option String → String
  | none => ""
  | some s => "\nДата: " ++ s

/-- `build_questionnaire_text` (`handlers.py`). -/
def build_questionnaire_text (d : QDetails) : String :=
  headerText d ++ fieldsText d.row ++ promoSection d.promo_codes ++ dateText d.row.created_at

/-- Outward effects of the completion and sweep pipelines, in program
order. -/
inductive Event where
  | createdSubmission (qid : Nat)
  | attachedPromos (uid qid count : Nat)
  | readDetails (qid : Nat) (found : Bool)
  | notify (operator : Nat) (text : String)
  | markedSent (ids : List Nat)
  | sessionCleared
deriving DecidableEq, Repr

/-- Whether an event is an operator notification. -/
def Event.isNotify : Event → Bool
  | Event.notify _ _ => true
  | _ => false

/-- `notify_admins_about_questionnaire` (`handlers.py`): nothing when no
operator ids are configured or the bot handle is unset; otherwise one send
per operator (individual failures are logged, the sends are still
attempted, so each is an event). -/
def notify_admins (admins : List Nat) (botSet : Bool) (d : QDetails) : List Event :=
  if admins = [] then []
  else if botSet = false then []
  else admins.map fun a => Event.notify a (build_questionnaire_text d)

/-- `finish_questionnaire` (`handlers.py`): create the submission, attach
the user's pending promo codes to it, re-read it with its codes, notify
the operators, mark it sent, clear the session.  The notify/mark steps are
guarded by the re-read succeeding (`if questionnaire:`); `state.clear()`
runs unconditionally. -/
def finish_questionnaire (db : DB) (uid : Nat) (d : SessionData)
    (admins : List Nat) (botSet : Bool) (now : String) : DB × List Event :=
  let r1 := create_questionnaire db uid d now
  let qid := r1.2
  let r2 := attachDB r1.1 uid qid
  match get_questionnaire_details r2.1 qid with
  | some det =>
    (mark_questionnaires_sent r2.1 [qid],
     Event.createdSubmission qid :: Event.attachedPromos uid qid r2.2
       :: Event.readDetails qid true
       :: (notify_admins admins botSet det ++ [Event.markedSent [qid], Event.sessionCleared]))
  | none =>
    (r2.1, [Event.createdSubmission qid, Event.attachedPromos uid qid r2.2,
            Event.readDetails qid false, Event.sessionCleared])

/-- `send_daily_questionnaires` (`main.py`): fetch the unreported
questionnaires; if none, return; otherwise notify the operators about each
and mark the whole batch sent in one update. -/
def send_daily_questionnaires (db : DB) (admins : List Nat) (botSet : Bool) :
    DB × List Event :=
  let qs := get_new_questionnaires db
  if qs = [] then (db, [])
  else
    let evs := qs.flatMap fun q => notify_admins admins botSet q
    let ids := qs.map fun q => q.row.id
    (if ids = [] then db else mark_questionnaires_sent db ids, evs)

/-- States of `promo_code_usage` reachable from the empty table by any
sequence of `process_promo_code` (Redeem) and
`attach_user_promo_codes_to_questionnaire` (Attach) calls, with the
`promo_codes` table fixed. -/
inductive Reach (promos : List PromoCode) : List Usage → Prop where
  | init : Reach promos []
  | redeem (uid : Nat) (txt : String) {us : List Usage} :
      Reach promos us → Reach promos (process_promo_code promos us uid txt).1
  | attach (uid qid : Nat) {us : List Usage} :
      Reach promos us → Reach promos (attachEffect promos us uid qid).1

/-- Number of usage rows of promo `pid` that reference a questionnaire. -/
def attachedCount (us : List Usage) (pid : Nat) : Nat :=
  (us.filter fun u => u.promo_code_id == pid && u.questionnaire_id.isSome).length

/-- The single-use invariant: every single-use promo code has at most one
usage row with a non-null questionnaire reference. -/
def SingleUseInv (promos : List PromoCode) (us : List Usage) : Prop :=
  ∀ pc ∈ promos, pc.is_single_use = true → attachedCount us pc.id ≤ 1

/-! ## Helper lemmas about the attach loop -/

/-- The attach loop only appends rows, each owned by the caller and
referencing the target questionnaire, and the returned count grows by the
number of appended rows. -/
theorem attachLoop_shape (uid qid : Nat) :
    ∀ (pend : List (Nat × Bool)) (us : List Usage) (cnt : Nat),
    ∃ new, attachLoop uid qid pend us cnt = (us ++ new, cnt + new.length) ∧
      ∀ r ∈ new, r.user_id = uid ∧ r.questionnaire_id = some qid := by
  intro pend
  induction pend with
  | nil =>
    intro us cnt
    exact ⟨[], by simp [attachLoop], by simp⟩
  | cons hd rest ih =>
    intro us cnt
    obtain ⟨pid, su⟩ := hd
    by_cases hg : (su && hasAttachedRow us pid) = true
    · obtain ⟨new, h1, h2⟩ := ih us cnt
      refine ⟨new, ?_, h2⟩
      rw [attachLoop, if_pos hg, h1]
    · obtain ⟨new, h1, h2⟩ := ih (us ++ [⟨uid, pid, some qid⟩]) (cnt + 1)
      refine ⟨⟨uid, pid, some qid⟩ :: new, ?_, ?_⟩
      · rw [attachLoop, if_neg hg, h1, List.append_assoc]
        simp [Nat.add_comm, Nat.add_assoc, Nat.add_left_comm]
      · intro r hr
        rcases List.mem_cons.mp hr with h3 | h3
        · simp [h3]
        · exact h2 r h3

/-- Count of attached rows over an append. -/
theorem attachedCount_append (us vs : List Usage) (pid : Nat) :
    attachedCount (us ++ vs) pid = attachedCount us pid + attachedCount vs pid := by
  simp [attachedCount, List.filter_append]

/-- No attached row for a code means the attached count is zero. -/
theorem hasAttachedRow_false_iff (us : List Usage) (pid : Nat) :
    hasAttachedRow us pid = false ↔ attachedCount us pid = 0 := by
  simp [hasAttachedRow, attachedCount, List.length_eq_zero, List.filter_eq_nil_iff,
    List.any_eq_false]

/-- Appending a pending (NULL questionnaire) row never changes the attached
count. -/
theorem attachedCount_append_pending (us : List Usage) (uid pid pcid : Nat) :
    attachedCount (us ++ [⟨uid, pid, none⟩]) pcid = attachedCount us pcid := by
  simp [attachedCount_append, attachedCount]

/-- With distinct promo-code ids, the pairs produced by `pendingPairs`
carry the `is_single_use` flag of the (unique) promo code with that id. -/
theorem pendingPairs_flag (promos : List PromoCode)
    (hnd : (promos.map PromoCode.id).Nodup) (us : List Usage) (uid : Nat) :
    ∀ pr ∈ pendingPairs promos us uid, ∀ pc ∈ promos, pc.id = pr.1 →
      pc.is_single_use = pr.2 := by
  intro pr hpr pc hpc hid
  obtain ⟨u, hu, hmap⟩ := List.mem_filterMap.mp hpr
  by_cases hc : u.user_id = uid ∧ u.questionnaire_id = none
  · rw [if_pos hc] at hmap
    obtain ⟨pc', hfind, heq⟩ := Option.map_eq_some'.mp hmap
    have hpc' : pc' ∈ promos := List.mem_of_find?_eq_some hfind
    have hid' : pc'.id = u.promo_code_id := by
      have := List.find?_some hfind
      simpa using this
    have h1 : pr.1 = u.promo_code_id := by rw [← heq]
    have h2 : pr.2 = pc'.is_single_use := by rw [← heq]
    have : pc = pc' :=
      List.inj_on_of_nodup_map hnd hpc hpc' (by rw [hid, h1, hid'])
    rw [h2, this]
  · rw [if_neg hc] at hmap
    exact absurd hmap (by simp)

/-- The attach loop preserves the single-use invariant, provided the
pending pairs carry the correct single-use flags: an insert for a
single-use code only happens after the live re-check found no attached
row. -/
theorem attachLoop_preserves_inv (promos : List PromoCode) (uid qid : Nat) :
    ∀ (pend : List (Nat × Bool)) (us : List Usage) (cnt : Nat),
    (∀ pr ∈ pend, ∀ pc ∈ promos, pc.id = pr.1 → pc.is_single_use = pr.2) →
    SingleUseInv promos us →
    SingleUseInv promos (attachLoop uid qid pend us cnt).1 := by
  intro pend
  induction pend with
  | nil =>
    intro us cnt _ hinv
    simpa [attachLoop] using hinv
  | cons hd rest ih =>
    intro us cnt hflag hinv
    obtain ⟨pid, su⟩ := hd
    by_cases hg : (su && hasAttachedRow us pid) = true
    · rw [attachLoop, if_pos hg]
      exact ih us cnt (fun pr hpr => hflag pr (List.mem_cons_of_mem _ hpr)) hinv
    · rw [attachLoop, if_neg hg]
      apply ih _ _ (fun pr hpr => hflag pr (List.mem_cons_of_mem _ hpr))
      intro pc hpc hsu
      rw [attachedCount_append]
      by_cases hid : pc.id = pid
      · have hflag' : pc.is_single_use = su :=
          hflag (pid, su) (List.mem_cons_self _ _) pc hpc hid
      -- the flag of this pair is true, so the guard failing means no
      -- attached row existed for the code
        have hsu' : su = true := by rw [← hflag', hsu]
        have hnorow : hasAttachedRow us pid = false := by
          cases h : hasAttachedRow us pid
          · rfl
          · exact absurd (by simp [hsu', h]) hg
        have h0 : attachedCount us pid = 0 :=
          (hasAttachedRow_false_iff us pid).mp hnorow
        have h1 : attachedCount [⟨uid, pid, some qid⟩] pid = 1 := by
          simp [attachedCount]
        rw [hid, h0, h1]
      · have h1 : attachedCount [⟨uid, pid, some qid⟩] pc.id = 0 := by
          simp only [attachedCount, List.filter, List.length_nil]
          have : ((pid == pc.id) && (some qid).isSome) = false := by
            simp
            intro h
            exact absurd h.symm hid
          rw [this]
          rfl
        rw [h1]
        simpa using hinv pc hpc hsu

/-- `process_promo_code` either leaves the usage table unchanged or appends
a single pending (NULL questionnaire) row for the caller. -/
theorem process_promo_code_usages (promos : List PromoCode) (us : List Usage)
    (uid : Nat) (txt : String) :
    (process_promo_code promos us uid txt).1 = us ∨
    ∃ pid, (process_promo_code promos us uid txt).1 = us ++ [⟨uid, pid, none⟩] := by
  simp only [process_promo_code]
  cases check_promo_code promos (pyStrip txt) with
  | none => exact Or.inl rfl
  | some promo =>
    by_cases h1 : (promo.is_single_use && hasAnyRow us promo.id) = true
    · simp [h1]
    · by_cases h2 : hasPendingRow us uid promo.id = true
      · simp [h1, h2]
      · simp [h1, h2]

/-- `process_promo_code` preserves the single-use invariant. -/
theorem process_promo_code_preserves_inv (promos : List PromoCode)
    (us : List Usage) (uid : Nat) (txt : String) :
    SingleUseInv promos us →
    SingleUseInv promos (process_promo_code promos us uid txt).1 := by
  intro hinv
  rcases process_promo_code_usages promos us uid txt with h | ⟨pid, h⟩
  · rw [h]; exact hinv
  · rw [h]
    intro pc hpc hsu
    rw [attachedCount_append_pending]
    exact hinv pc hpc hsu

/-- C1: for every single-use promo code, in every state of the
`promo_code_usage` table reachable by any sequence of Redeem
(`process_promo_code`) and Attach (`attach_user_promo_codes_to_questionnaire`)
operations, at most one usage row for that code has a non-null
questionnaire reference, across all users.  (`promo_codes` ids are
pairwise distinct, as guaranteed by the SERIAL primary key.) -/
theorem single_use_attached_at_most_once (promos : List PromoCode)
    (hnd : (promos.map PromoCode.id).Nodup) (us : List Usage)
    (h : Reach promos us) : SingleUseInv promos us := by
  induction h with
  | init =>
    intro pc _ _
    simp [attachedCount]
  | redeem uid txt _ ih =>
    exact process_promo_code_preserves_inv promos _ uid txt ih
  | attach uid qid _ ih =>
    exact attachLoop_preserves_inv promos uid qid _ _ 0
      (pendingPairs_flag promos hnd _ uid) ih

/-- Witness for C1: the invariant holds in the concrete state obtained by
a user redeeming the single-use code `VIP1` and attaching it to
questionnaire 1. -/
theorem single_use_attached_at_most_once_witness :
    SingleUseInv [⟨1, "VIP1", some "d", true⟩]
      (attachEffect [⟨1, "VIP1", some "d", true⟩]
        (process_promo_code [⟨1, "VIP1", some "d", true⟩] [] 7 "VIP1").1 7 1).1 :=
  single_use_attached_at_most_once _ (by decide) _
    (Reach.attach 7 1 (Reach.redeem 7 "VIP1" Reach.init))

/-- A pending row for `(uid, pid)` is in particular a row for `pid`. -/
theorem hasPendingRow_imp_hasAnyRow (us : List Usage) (uid pid : Nat)
    (h : hasPendingRow us uid pid = true) : hasAnyRow us pid = true := by
  simp only [hasPendingRow, List.any_eq_true] at h
  obtain ⟨u, hu, hp⟩ := h
  simp only [Bool.and_eq_true] at hp
  simp only [hasAnyRow, List.any_eq_true]
  exact ⟨u, hu, hp.1.2⟩

/-- Counterexample to C2 as stated: with the single-use code `VIP1` held
only as a pending redemption (no redemption anywhere carries a non-null
questionnaire reference), a second redemption attempt by the same user
fails with `alreadyUsed` instead of succeeding as a no-op, because
`process_promo_code` checks for ANY `promo_code_usage` row of the code,
not only attached ones. -/
theorem redeem_single_use_pending_counterexample :
    (process_promo_code [⟨1, "VIP1", some "d", true⟩]
        [⟨7, 1, none⟩] 7 "VIP1").2 = Reply.alreadyUsed ∧
    ∀ u ∈ ([⟨7, 1, none⟩] : List Usage), u.questionnaire_id = none := by
  refine ⟨by decide, by decide⟩

/-- C2 (amended): redemption of a single-use code fails with `alreadyUsed`
iff ANY `promo_code_usage` row of that code exists — pending or attached —
in which case the table is unchanged; when no row of the code exists, the
redemption inserts one pending row and answers with the upper-cased code
and its description.  (In particular a second attempt by the same user who
only holds a pending redemption fails with `alreadyUsed` rather than being
a no-op success.) -/
theorem redeem_single_use_characterisation (promos : List PromoCode)
    (us : List Usage) (uid : Nat) (txt : String) (promo : PromoCode)
    (hfind : check_promo_code promos (pyStrip txt) = some promo)
    (hsu : promo.is_single_use = true) :
    ((process_promo_code promos us uid txt).2 = Reply.alreadyUsed ↔
      hasAnyRow us promo.id = true) ∧
    (hasAnyRow us promo.id = true →
      (process_promo_code promos us uid txt).1 = us) ∧
    (hasAnyRow us promo.id = false →
      (process_promo_code promos us uid txt).1 = us ++ [⟨uid, promo.id, none⟩] ∧
      (process_promo_code promos us uid txt).2 =
        Reply.applied (pyUpper (pyStrip txt)) promo.description) := by
  have hnp : hasAnyRow us promo.id = false → hasPendingRow us uid promo.id = false := by
    intro h
    cases hp : hasPendingRow us uid promo.id
    · rfl
    · rw [hasPendingRow_imp_hasAnyRow us uid promo.id hp] at h
      exact absurd h (by simp)
  simp only [process_promo_code, hfind]
  cases hAny : hasAnyRow us promo.id
  · simp [hsu, hAny, hnp hAny]
  · simp [hsu, hAny]

/-- Witness for C2's amended theorem: redeeming the unused single-use code
`SALE` (entered in lower case) inserts one pending row and answers with
the upper-cased code. -/
theorem redeem_single_use_characterisation_witness :
    (process_promo_code [⟨1, "SALE", none, true⟩] [] 7 "sale").1 = [⟨7, 1, none⟩] ∧
    (process_promo_code [⟨1, "SALE", none, true⟩] [] 7 "sale").2 =
      Reply.applied "SALE" none := by
  have h := redeem_single_use_characterisation [⟨1, "SALE", none, true⟩] [] 7 "sale"
    ⟨1, "SALE", none, true⟩ (by decide) rfl
  exact ⟨(h.2.2 rfl).1, (h.2.2 rfl).2⟩

/-- Rows that already exist keep witnessing `hasAttachedRow` after an
append. -/
theorem hasAttachedRow_append_left (us vs : List Usage) (pid : Nat)
    (h : hasAttachedRow us pid = true) :
    hasAttachedRow (us ++ vs) pid = true := by
  simp only [hasAttachedRow, List.any_append, Bool.or_eq_true]
  exact Or.inl h

/-- `hasAttachedRow` is monotone along the attach loop (the loop only
appends rows). -/
theorem attachLoop_hasAttachedRow_mono (uid qid : Nat)
    (pend : List (Nat × Bool)) (us : List Usage) (cnt : Nat) (pid : Nat)
    (h : hasAttachedRow us pid = true) :
    hasAttachedRow (attachLoop uid qid pend us cnt).1 pid = true := by
  obtain ⟨new, h1, _⟩ := attachLoop_shape uid qid pend us cnt
  rw [h1]
  exact hasAttachedRow_append_left us new pid h

/-- After the attach loop, every single-use pending pair has an attached
row: either one existed already (guard taken) or the loop inserted one. -/
theorem attachLoop_attaches_single_use (uid qid : Nat) :
    ∀ (pend : List (Nat × Bool)) (us : List Usage) (cnt : Nat) (pid : Nat),
    (pid, true) ∈ pend →
    hasAttachedRow (attachLoop uid qid pend us cnt).1 pid = true := by
  intro pend
  induction pend with
  | nil =>
    intro us cnt pid h
    exact absurd h (List.not_mem_nil _)
  | cons hd rest ih =>
    intro us cnt pid hmem
    obtain ⟨p0, s0⟩ := hd
    by_cases hg : (s0 && hasAttachedRow us p0) = true
    · rw [attachLoop, if_pos hg]
      rcases List.mem_cons.mp hmem with h | h
      · have hp : p0 = pid := congrArg Prod.fst h.symm
        have hrow : hasAttachedRow us pid = true := by
          rw [← hp]
          exact (Bool.and_eq_true _ _ |>.mp hg).2
        exact attachLoop_hasAttachedRow_mono uid qid rest us cnt pid hrow
      · exact ih us cnt pid h
    · rw [attachLoop, if_neg hg]
      rcases List.mem_cons.mp hmem with h | h
      · have hp : p0 = pid := congrArg Prod.fst h.symm
        have hrow : hasAttachedRow (us ++ [⟨uid, p0, some qid⟩]) pid = true := by
          simp [hasAttachedRow, hp]
        exact attachLoop_hasAttachedRow_mono uid qid rest _ _ pid hrow
      · exact ih _ _ pid h

/-- When every pending pair is single-use and already has an attached row,
the attach loop does nothing. -/
theorem attachLoop_noop (uid qid : Nat) :
    ∀ (pend : List (Nat × Bool)) (us : List Usage) (cnt : Nat),
    (∀ pr ∈ pend, pr.2 = true ∧ hasAttachedRow us pr.1 = true) →
    attachLoop uid qid pend us cnt = (us, cnt) := by
  intro pend
  induction pend with
  | nil => intro us cnt _; rfl
  | cons hd rest ih =>
    intro us cnt hall
    obtain ⟨p0, s0⟩ := hd
    obtain ⟨hs0, hrow⟩ := hall (p0, s0) (List.mem_cons_self _ _)
    have hs0' : s0 = true := hs0
    have hrow' : hasAttachedRow us p0 = true := hrow
    have hg : (s0 && hasAttachedRow us p0) = true := by rw [hs0', hrow']; rfl
    rw [attachLoop, if_pos hg]
    exact ih us cnt fun pr hpr => hall pr (List.mem_cons_of_mem _ hpr)

/-- Pending pairs are computed from the NULL-questionnaire rows only, so
appending attached rows leaves them unchanged. -/
theorem pendingPairs_append_attached (promos : List PromoCode)
    (us new : List Usage) (uid : Nat)
    (h : ∀ r ∈ new, r.questionnaire_id.isSome = true) :
    pendingPairs promos (us ++ new) uid = pendingPairs promos us uid := by
  simp only [pendingPairs, List.filterMap_append]
  have hnil : new.filterMap (fun u =>
      if u.user_id = uid ∧ u.questionnaire_id = none then
        (promos.find? fun pc => pc.id == u.promo_code_id).map
          fun pc => (u.promo_code_id, pc.is_single_use)
      else none) = [] := by
    rw [List.filterMap_eq_nil_iff]
    intro r hr
    have := h r hr
    rw [if_neg]
    intro hc
    rw [hc.2] at this
    exact absurd this (by simp)
  rw [hnil, List.append_nil]

/-- The usage table after an attach call: the old rows plus freshly
attached rows only. -/
theorem attachEffect_pendingPairs (promos : List PromoCode) (us : List Usage)
    (uid qid : Nat) :
    pendingPairs promos (attachEffect promos us uid qid).1 uid =
      pendingPairs promos us uid := by
  obtain ⟨new, h1, h2⟩ :=
    attachLoop_shape uid qid (pendingPairs promos us uid) us 0
  simp only [attachEffect, h1]
  exact pendingPairs_append_attached promos us new uid fun r hr => by
    rw [(h2 r hr).2]
    rfl

/-- Counterexample to C3 as stated: for a user holding one pending
redemption of the non-single-use code `SUMMER`, the second of two
consecutive Attach calls with the same submission id is NOT a no-op — it
inserts a duplicate attached row and returns 1. -/
theorem attach_twice_counterexample :
    attachEffect [⟨1, "SUMMER", some "s", false⟩]
        (attachEffect [⟨1, "SUMMER", some "s", false⟩] [⟨7, 1, none⟩] 7 1).1 7 1 =
      ([⟨7, 1, none⟩, ⟨7, 1, some 1⟩, ⟨7, 1, some 1⟩], 1) ∧
    (attachEffect [⟨1, "SUMMER", some "s", false⟩] [⟨7, 1, none⟩] 7 1).1 =
      [⟨7, 1, none⟩, ⟨7, 1, some 1⟩] := by
  refine ⟨by decide, by decide⟩

/-- C3 (amended): calling Attach twice in a row with no intervening Redeem
is a no-op the second time only when every pending redemption of the user
is single-use: the first call leaves each such code with an attached row,
and the second call then attaches nothing and leaves the table unchanged.
(For non-single-use pending codes the second call inserts a duplicate
attached row per code, as the counterexample shows.) -/
theorem attach_twice_noop_single_use (promos : List PromoCode)
    (us : List Usage) (uid qid : Nat)
    (hall : ∀ pr ∈ pendingPairs promos us uid, pr.2 = true) :
    attachEffect promos (attachEffect promos us uid qid).1 uid qid =
      ((attachEffect promos us uid qid).1, 0) ∧
    ∀ pr ∈ pendingPairs promos us uid,
      hasAttachedRow (attachEffect promos us uid qid).1 pr.1 = true := by
  have hattached : ∀ pr ∈ pendingPairs promos us uid,
      hasAttachedRow (attachEffect promos us uid qid).1 pr.1 = true := by
    intro pr hpr
    have hpr' : (pr.1, true) ∈ pendingPairs promos us uid := by
      have := hall pr hpr
      rwa [← this, Prod.mk.eta]
    exact attachLoop_attaches_single_use uid qid _ us 0 pr.1 hpr'
  refine ⟨?_, hattached⟩
  have hpp := attachEffect_pendingPairs promos us uid qid
  have hunfold : attachEffect promos (attachEffect promos us uid qid).1 uid qid =
      attachLoop uid qid (pendingPairs promos us uid)
        (attachEffect promos us uid qid).1 0 := by
    rw [show attachEffect promos (attachEffect promos us uid qid).1 uid qid =
        attachLoop uid qid (pendingPairs promos (attachEffect promos us uid qid).1 uid)
          (attachEffect promos us uid qid).1 0 from rfl, hpp]
  rw [hunfold]
  exact attachLoop_noop uid qid _ _ 0 fun pr hpr =>
    ⟨hall pr hpr, hattached pr hpr⟩

/-- Witness for C3's amended theorem: a user holding one pending
redemption of a single-use code; the second Attach call is a no-op. -/
theorem attach_twice_noop_single_use_witness :
    attachEffect [⟨1, "VIP2", none, true⟩]
        (attachEffect [⟨1, "VIP2", none, true⟩] [⟨9, 1, none⟩] 9 4).1 9 4 =
      ((attachEffect [⟨1, "VIP2", none, true⟩] [⟨9, 1, none⟩] 9 4).1, 0) :=
  (attach_twice_noop_single_use [⟨1, "VIP2", none, true⟩] [⟨9, 1, none⟩] 9 4
    (by decide)).1

/-- Existing rows survive the attach loop (it only appends). -/
theorem attachLoop_mem_mono (uid qid : Nat) (pend : List (Nat × Bool))
    (us : List Usage) (cnt : Nat) (r : Usage) (h : r ∈ us) :
    r ∈ (attachLoop uid qid pend us cnt).1 := by
  obtain ⟨new, h1, _⟩ := attachLoop_shape uid qid pend us cnt
  rw [h1]
  exact List.mem_append_left new h

/-- Every non-single-use pending pair gets a row inserted by the attach
loop (its guard never fires). -/
theorem attachLoop_inserts_multi_use (uid qid : Nat) :
    ∀ (pend : List (Nat × Bool)) (us : List Usage) (cnt : Nat) (pid : Nat),
    (pid, false) ∈ pend →
    (⟨uid, pid, some qid⟩ : Usage) ∈ (attachLoop uid qid pend us cnt).1 := by
  intro pend
  induction pend with
  | nil =>
    intro us cnt pid h
    exact absurd h (List.not_mem_nil _)
  | cons hd rest ih =>
    intro us cnt pid hmem
    obtain ⟨p0, s0⟩ := hd
    by_cases hg : (s0 && hasAttachedRow us p0) = true
    · rw [attachLoop, if_pos hg]
      rcases List.mem_cons.mp hmem with h | h
      · have hs0 : s0 = false := congrArg Prod.snd h.symm
        rw [hs0] at hg
        exact absurd hg (by simp)
      · exact ih us cnt pid h
    · rw [attachLoop, if_neg hg]
      rcases List.mem_cons.mp hmem with h | h
      · have hp : p0 = pid := congrArg Prod.fst h.symm
        rw [hp]
        exact attachLoop_mem_mono uid qid rest _ _ _
          (List.mem_append_right us (List.mem_singleton_self _))
      · exact ih _ _ pid h

/-- Counterexample to C9's final clause: a pending redemption of the
single-use code `VIP3`, once attached to questionnaire 1, is NOT attached
again to the user's next questionnaire 2 — the second Attach call skips it
and returns 0. -/
theorem attach_single_use_not_reattached_counterexample :
    attachEffect [⟨1, "VIP3", none, true⟩]
        (attachEffect [⟨1, "VIP3", none, true⟩] [⟨8, 1, none⟩] 8 1).1 8 2 =
      ((attachEffect [⟨1, "VIP3", none, true⟩] [⟨8, 1, none⟩] 8 1).1, 0) ∧
    (⟨8, 1, some 2⟩ : Usage) ∉
      (attachEffect [⟨1, "VIP3", none, true⟩]
        (attachEffect [⟨1, "VIP3", none, true⟩] [⟨8, 1, none⟩] 8 1).1 8 2).1 := by
  refine ⟨by decide, by decide⟩

/-- C9 (amended): Attach never updates or deletes the user's pending
redemption rows — it only appends rows carrying the submission id, the
count it returns is the number of appended rows, and the user's pending
pairs are exactly what they were before.  Pending NON-single-use codes are
attached again to the user's next submission; pending single-use codes
that already got attached are skipped by the re-check (see the
counterexample). -/
theorem attach_only_inserts (promos : List PromoCode) (us : List Usage)
    (uid qid : Nat) :
    ∃ new, (attachEffect promos us uid qid).1 = us ++ new ∧
      (attachEffect promos us uid qid).2 = new.length ∧
      (∀ r ∈ new, r.user_id = uid ∧ r.questionnaire_id = some qid) ∧
      pendingPairs promos (attachEffect promos us uid qid).1 uid =
        pendingPairs promos us uid ∧
      (∀ qid2 pid, (pid, false) ∈ pendingPairs promos us uid →
        (⟨uid, pid, some qid2⟩ : Usage) ∈
          (attachEffect promos (attachEffect promos us uid qid).1 uid qid2).1) := by
  obtain ⟨new, h1, h2⟩ :=
    attachLoop_shape uid qid (pendingPairs promos us uid) us 0
  refine ⟨new, ?_, ?_, h2, attachEffect_pendingPairs promos us uid qid, ?_⟩
  · rw [attachEffect, h1]
  · rw [attachEffect, h1]
    exact Nat.zero_add new.length
  · intro qid2 pid hmem
    have hpp := attachEffect_pendingPairs promos us uid qid
    have hmem2 : (pid, false) ∈
        pendingPairs promos (attachEffect promos us uid qid).1 uid := by
      rw [hpp]; exact hmem
    exact attachLoop_inserts_multi_use uid qid2 _ _ 0 pid hmem2

/-- Witness for C9's amended theorem: a pending non-single-use code is
attached again to the user's next submission. -/
theorem attach_only_inserts_witness :
    (⟨7, 1, some 2⟩ : Usage) ∈
      (attachEffect [⟨1, "BONUS", none, false⟩]
        (attachEffect [⟨1, "BONUS", none, false⟩] [⟨7, 1, none⟩] 7 1).1 7 2).1 := by
  obtain ⟨new, _, _, _, _, h5⟩ :=
    attach_only_inserts [⟨1, "BONUS", none, false⟩] [⟨7, 1, none⟩] 7 1
  exact h5 2 1 (by decide)

/-- The fallible attach loop never propagates an error — the only raising
statement is the insert, and it sits inside `try/except: pass` — and it
never emits a log record, because its body contains no `logger` call. -/
theorem attachLoopF_ok_silent (oracle : Nat → Bool) (uid qid : Nat) :
    ∀ (pend : List (Nat × Bool)) (us : List Usage) (cnt i : Nat),
    ∃ us' cnt', attachLoopF oracle uid qid pend us cnt i =
      Except.ok (us', cnt', []) := by
  intro pend
  induction pend with
  | nil =>
    intro us cnt i
    exact ⟨us, cnt, rfl⟩
  | cons hd rest ih =>
    intro us cnt i
    obtain ⟨p0, s0⟩ := hd
    by_cases hg : (s0 && hasAttachedRow us p0) = true
    · rw [attachLoopF, if_pos hg]
      exact ih us cnt i
    · by_cases ho : oracle i = true
      · rw [attachLoopF, if_neg hg]
        simp only [insertUsageF, ho, if_true]
        exact ih us cnt (i + 1)
      · rw [attachLoopF, if_neg hg]
        simp only [insertUsageF, ho, Bool.false_eq_true, if_false]
        exact ih _ (cnt + 1) (i + 1)

/-- Counterexample to C5 as stated: a user holds one pending redemption,
and the single insert attempt of the Attach call fails (the oracle makes
every insert raise).  The failure is swallowed — the call returns
normally, with the table unchanged and count 0 — but the emitted log is
EMPTY: the bare `except: pass` never logs the failure, contradicting
"swallowed and logged". -/
theorem attach_insert_failure_not_logged_counterexample :
    attachEffectF (fun _ => true) [⟨1, "VIP4", none, false⟩]
        [⟨6, 1, none⟩] 6 3 =
      Except.ok ([⟨6, 1, none⟩], 0, []) := by
  rfl

/-- C5 (amended): Attach is safe to call with zero pending redemptions —
it returns 0 and leaves the table unchanged — and it never raises an
error that aborts submission completion: whatever subset of the
individual inserts fails, the call still returns normally.  The failures
are swallowed SILENTLY, not logged: the bare `except: pass` emits no log
record, so the call's log output is empty for every fault pattern. -/
theorem attach_safe_silent (promos : List PromoCode) (us : List Usage)
    (uid qid : Nat) :
    (∀ oracle, ∃ us' cnt, attachEffectF oracle promos us uid qid =
      Except.ok (us', cnt, [])) ∧
    (pendingPairs promos us uid = [] →
      attachEffect promos us uid qid = (us, 0) ∧
      ∀ oracle, attachEffectF oracle promos us uid qid =
        Except.ok (us, 0, [])) := by
  constructor
  · intro oracle
    exact attachLoopF_ok_silent oracle uid qid _ us 0 0
  · intro hnone
    constructor
    · rw [attachEffect, hnone]
      rfl
    · intro oracle
      rw [attachEffectF, hnone]
      rfl

/-- Witness for C5's amended theorem: a user with an empty usage table has
zero pending redemptions; Attach returns 0, changes nothing, and logs
nothing, with or without insert faults. -/
theorem attach_safe_silent_witness :
    attachEffect [⟨1, "SUMMER2", none, false⟩] [] 7 1 = ([], 0) ∧
    attachEffectF (fun _ => true) [⟨1, "SUMMER2", none, false⟩] [] 7 1 =
      Except.ok ([], 0, []) :=
  ⟨((attach_safe_silent [⟨1, "SUMMER2", none, false⟩] [] 7 1).2 rfl).1,
   ((attach_safe_silent [⟨1, "SUMMER2", none, false⟩] [] 7 1).2 rfl).2
     (fun _ => true)⟩

/-- Counterexample to C6 as stated: the input string `"nan"` is accepted
by the weight step — Python's `float("nan")` parses, and `nan < 1` and
`nan > 500` are both false — storing `nan` and advancing the flow, yet
`nan` is not a decimal in [1,500] (it is no rational number at all). -/
theorem weight_accepts_nan_counterexample :
    (process_weight ⟨QState.waiting_weight, {}⟩ "nan").1.state =
      QState.waiting_workouts ∧
    (process_weight ⟨QState.waiting_weight, {}⟩ "nan").1.data.weight =
      some PFloat.nan ∧
    ∀ q : ℚ, PFloat.nan ≠ PFloat.val q := by
  refine ⟨by decide, by decide, ?_⟩
  intro q h
  exact PFloat.noConfusion h

/-- Python's weight range check `not (w < 1 or w > 500)` passes exactly
for the finite decimals in [1,500] — and for `nan`, whose comparisons are
always false. -/
theorem weight_range_check_characterisation (w : PFloat) :
    (PFloat.lt w (PFloat.val 1) || PFloat.lt (PFloat.val 500) w) = false ↔
      (w = PFloat.nan ∨ ∃ q : ℚ, w = PFloat.val q ∧ 1 ≤ q ∧ q ≤ 500) := by
  cases w with
  | nan => simp [PFloat.lt]
  | inf => simp [PFloat.lt]
  | ninf => simp [PFloat.lt]
  | val q => simp [PFloat.lt, not_lt]

/-- C6 (amended): for every input string, the age step accepts exactly the
integers in [1,150] and the workout step exactly the integers in [1,7];
the weight step (commas first replaced by dots) accepts exactly the
decimals in [1,500] TOGETHER WITH `nan` (Python float comparisons with
`nan` are false, so `nan` passes the range check); `75.5` and `75,5` are
treated identically; every rejected input leaves the session unchanged and
re-prompts; the claimed boundary values parse as stated (0, 151, 1, 150;
0.5, 500.1, 1, 500; 0, 8, 1, 7). -/
theorem input_validation_boundaries :
    (∀ (sess : Session) (t : String),
      (pyInt t = none → process_age sess t = (sess, "Пожалуйста, введите число:")) ∧
      (∀ a : Int, pyInt t = some a → (a < 1 ∨ a > 150) →
        process_age sess t =
          (sess, "Пожалуйста, введите корректный возраст (от 1 до 150):")) ∧
      (∀ a : Int, pyInt t = some a → 1 ≤ a → a ≤ 150 →
        process_age sess t =
          (⟨QState.waiting_weight, { sess.data with age := some a }⟩,
           "Укажите ваш вес в килограммах (например, 75.5):"))) ∧
    (∀ (sess : Session) (t : String),
      (pyFloat (pyReplaceCommaDot t) = none →
        process_weight sess t =
          (sess, "Пожалуйста, введите число (можно с десятичной точкой):")) ∧
      (∀ w : PFloat, pyFloat (pyReplaceCommaDot t) = some w →
        (PFloat.lt w (PFloat.val 1) || PFloat.lt (PFloat.val 500) w) = true →
        process_weight sess t =
          (sess, "Пожалуйста, введите корректный вес (от 1 до 500 кг):")) ∧
      (∀ w : PFloat, pyFloat (pyReplaceCommaDot t) = some w →
        (PFloat.lt w (PFloat.val 1) || PFloat.lt (PFloat.val 500) w) = false →
        process_weight sess t =
          (⟨QState.waiting_workouts, { sess.data with weight := some w }⟩,
           "Сколько тренировок в неделю вы хотите? (введите число):"))) ∧
    (∀ (sess : Session) (t : String),
      (pyInt t = none → process_workouts sess t = (sess, "Пожалуйста, введите число:")) ∧
      (∀ a : Int, pyInt t = some a → (a < 1 ∨ a > 7) →
        process_workouts sess t = (sess, "Пожалуйста, введите число от 1 до 7:")) ∧
      (∀ a : Int, pyInt t = some a → 1 ≤ a → a ≤ 7 →
        process_workouts sess t =
          (⟨QState.waiting_diet, { sess.data with workouts_per_week := some a }⟩,
           "Опишите ваш текущий рацион питания (можно пропустить):"))) ∧
    (∀ sess : Session, process_weight sess "75,5" = process_weight sess "75.5") ∧
    (pyInt "0" = some 0 ∧ pyInt "151" = some 151 ∧ pyInt "1" = some 1 ∧
      pyInt "150" = some 150 ∧ pyInt "8" = some 8 ∧ pyInt "7" = some 7 ∧
      pyFloat "0.5" = some (PFloat.val (mkRat 1 2)) ∧
      pyFloat "500.1" = some (PFloat.val (mkRat 5001 10)) ∧
      pyFloat "1" = some (PFloat.val 1) ∧
      pyFloat "500" = some (PFloat.val 500) ∧
      pyFloat "75.5" = some (PFloat.val (mkRat 151 2))) := by
  refine ⟨?_, ?_, ?_, ?_, ?_⟩
  · intro sess t
    refine ⟨?_, ?_, ?_⟩
    · intro h
      simp [process_age, h]
    · intro a h hout
      simp only [process_age, h]
      rw [if_pos hout]
    · intro a h h1 h2
      simp only [process_age, h]
      rw [if_neg (by omega)]
  · intro sess t
    refine ⟨?_, ?_, ?_⟩
    · intro h
      simp [process_weight, h]
    · intro w h hout
      simp only [process_weight, h]
      rw [if_pos hout]
    · intro w h hin
      simp only [process_weight, h]
      rw [if_neg (by rw [hin]; exact Bool.false_ne_true)]
  · intro sess t
    refine ⟨?_, ?_, ?_⟩
    · intro h
      simp [process_workouts, h]
    · intro a h hout
      simp only [process_workouts, h]
      rw [if_pos hout]
    · intro a h h1 h2
      simp only [process_workouts, h]
      rw [if_neg (by omega)]
  · intro sess
    rfl
  · refine ⟨by decide, by decide, by decide, by decide, by decide, by decide,
      by decide, by decide, by decide, by decide, by decide⟩

/-- Witness for C6's amended theorem: the boundary value 150 is accepted
by the age step on a fresh session in the age state. -/
theorem input_validation_boundaries_witness :
    process_age ⟨QState.waiting_age, {}⟩ "150" =
      (⟨QState.waiting_weight,
        ⟨none, some 150, none, none, none, none⟩⟩,
       "Укажите ваш вес в килограммах (например, 75.5):") :=
  (input_validation_boundaries.1 ⟨QState.waiting_age, {}⟩ "150").2.2 150
    (by decide) (by decide) (by decide)

/-- With the bot handle set, `notify_admins_about_questionnaire` sends one
message per configured operator (also correct for the empty list). -/
theorem notify_admins_eq_map (admins : List Nat) (d : QDetails) :
    notify_admins admins true d =
      admins.map fun a => Event.notify a (build_questionnaire_text d) := by
  cases admins with
  | nil => rfl
  | cons a rest => rfl

/-- The promo-code line of the notification text, when the aggregated list
starts with a truthy code. -/
theorem promoSection_eq (pcs : List (Option String)) (c : Option String)
    (hhead : pcs.head? = some c) (ht : pyTruthyStr c = true) :
    promoSection pcs =
      "\nПромокоды: " ++ String.intercalate ", " (truthyCodes pcs) ++ "\n" := by
  cases pcs with
  | nil => cases hhead
  | cons c0 rest =>
    have hc : c0 = c := by
      simpa using hhead
    rw [hc]
    simp [promoSection, ht]

/-- The notification text contains the comma-joined list of the attached
promo codes whenever the aggregated list starts with a truthy code. -/
theorem build_text_contains_codes (d : QDetails) (c : Option String)
    (hhead : d.promo_codes.head? = some c) (ht : pyTruthyStr c = true) :
    ∃ pre post, build_questionnaire_text d =
      pre ++ String.intercalate ", " (truthyCodes d.promo_codes) ++ post := by
  refine ⟨headerText d ++ fieldsText d.row ++ "\nПромокоды: ",
          "\n" ++ dateText d.row.created_at, ?_⟩
  rw [build_questionnaire_text, promoSection_eq d.promo_codes c hhead ht]
  simp only [String.append_assoc]

/-- Looking up the freshly created questionnaire after the attach step
succeeds and returns the created row joined to its (existing) user and the
post-attach codes. -/
theorem get_details_fresh (db : DB) (uid : Nat) (d : SessionData)
    (now : String) (u : UserRow)
    (hu : db.users.find? (fun x => x.user_id == uid) = some u)
    (hfresh : ∀ q ∈ db.questionnaires, q.id ≠ db.next_qid) :
    get_questionnaire_details
        (attachDB (create_questionnaire db uid d now).1 uid db.next_qid).1
        db.next_qid =
      some ⟨⟨db.next_qid, uid, d.gender, d.age, d.weight, d.workouts_per_week,
             d.diet, d.problem_or_injury, some now, false⟩,
            u.username, u.first_name,
            codesFor
              (attachDB (create_questionnaire db uid d now).1 uid db.next_qid).1
              db.next_qid⟩ := by
  have hqs : (attachDB (create_questionnaire db uid d now).1 uid
      db.next_qid).1.questionnaires =
      db.questionnaires ++
        [⟨db.next_qid, uid, d.gender, d.age, d.weight, d.workouts_per_week,
          d.diet, d.problem_or_injury, some now, false⟩] := rfl
  have husers : (attachDB (create_questionnaire db uid d now).1 uid
      db.next_qid).1.users = db.users := rfl
  have hnone : db.questionnaires.find? (fun q => q.id == db.next_qid) = none := by
    rw [List.find?_eq_none]
    intro q hq
    simp only [beq_iff_eq]
    exact hfresh q hq
  have hfind : (attachDB (create_questionnaire db uid d now).1 uid
      db.next_qid).1.questionnaires.find? (fun q => q.id == db.next_qid) =
      some ⟨db.next_qid, uid, d.gender, d.age, d.weight, d.workouts_per_week,
            d.diet, d.problem_or_injury, some now, false⟩ := by
    rw [hqs, List.find?_append, hnone]
    simp [List.find?]
  simp only [get_questionnaire_details, hfind, husers, hu]

/-- The full effect of `finish_questionnaire` when the user exists and the
submission id is fresh: the submission is created, the pending codes are
attached, the submission is re-read with its codes, each operator is
notified with the rendered text, the submission is marked sent, and the
session is cleared — in this order, none skipped. -/
theorem finish_questionnaire_shape (db : DB) (uid : Nat) (d : SessionData)
    (admins : List Nat) (now : String) (u : UserRow)
    (hu : db.users.find? (fun x => x.user_id == uid) = some u)
    (hfresh : ∀ q ∈ db.questionnaires, q.id ≠ db.next_qid) :
    ∃ det : QDetails,
      get_questionnaire_details
        (attachDB (create_questionnaire db uid d now).1 uid db.next_qid).1
        db.next_qid = some det ∧
      det.promo_codes =
        codesFor
          (attachDB (create_questionnaire db uid d now).1 uid db.next_qid).1
          db.next_qid ∧
      finish_questionnaire db uid d admins true now =
        (mark_questionnaires_sent
           (attachDB (create_questionnaire db uid d now).1 uid db.next_qid).1
           [db.next_qid],
         Event.createdSubmission db.next_qid ::
           Event.attachedPromos uid db.next_qid
             (attachDB (create_questionnaire db uid d now).1 uid db.next_qid).2 ::
           Event.readDetails db.next_qid true ::
           (admins.map (fun a => Event.notify a (build_questionnaire_text det)) ++
            [Event.markedSent [db.next_qid], Event.sessionCleared])) := by
  refine ⟨_, get_details_fresh db uid d now u hu hfresh, rfl, ?_⟩
  have hdet : get_questionnaire_details
      (attachDB (create_questionnaire db uid d now).1 uid
        (create_questionnaire db uid d now).2).1
      (create_questionnaire db uid d now).2 =
      some ⟨⟨db.next_qid, uid, d.gender, d.age, d.weight, d.workouts_per_week,
             d.diet, d.problem_or_injury, some now, false⟩,
            u.username, u.first_name,
            codesFor
              (attachDB (create_questionnaire db uid d now).1 uid db.next_qid).1
              db.next_qid⟩ :=
    get_details_fresh db uid d now u hu hfresh
  simp only [finish_questionnaire, hdet]
  rw [notify_admins_eq_map]
  exact rfl

/-- C4: on flow completion the terminal steps happen in this order and
none is skipped — the submission row is created, the user's pending
redemptions are attached to the new submission id, the submission is
re-read together with its attached promo codes, operator notification is
attempted with a message containing the joined attached codes, the
submission is marked reported, and the session is cleared.  (Hypotheses:
the user exists and the serial id is fresh, both guaranteed by the
database.) -/
theorem finish_questionnaire_order (db : DB) (uid : Nat) (d : SessionData)
    (admins : List Nat) (now : String) (u : UserRow)
    (hu : db.users.find? (fun x => x.user_id == uid) = some u)
    (hfresh : ∀ q ∈ db.questionnaires, q.id ≠ db.next_qid) :
    ∃ det : QDetails,
      get_questionnaire_details
        (attachDB (create_questionnaire db uid d now).1 uid db.next_qid).1
        db.next_qid = some det ∧
      det.promo_codes =
        codesFor
          (attachDB (create_questionnaire db uid d now).1 uid db.next_qid).1
          db.next_qid ∧
      finish_questionnaire db uid d admins true now =
        (mark_questionnaires_sent
           (attachDB (create_questionnaire db uid d now).1 uid db.next_qid).1
           [db.next_qid],
         Event.createdSubmission db.next_qid ::
           Event.attachedPromos uid db.next_qid
             (attachDB (create_questionnaire db uid d now).1 uid db.next_qid).2 ::
           Event.readDetails db.next_qid true ::
           (admins.map (fun a => Event.notify a (build_questionnaire_text det)) ++
            [Event.markedSent [db.next_qid], Event.sessionCleared])) ∧
      (∀ c, det.promo_codes.head? = some c → pyTruthyStr c = true →
        ∃ pre post, build_questionnaire_text det =
          pre ++ String.intercalate ", " (truthyCodes det.promo_codes) ++ post) := by
  obtain ⟨det, h1, h2, h3⟩ :=
    finish_questionnaire_shape db uid d admins now u hu hfresh
  exact ⟨det, h1, h2, h3, fun c hc ht => build_text_contains_codes det c hc ht⟩

/-- Witness for C4: a concrete completion (one existing user, one pending
code, one operator) produces exactly the six pipeline events. -/
theorem finish_questionnaire_order_witness :
    (finish_questionnaire
        ⟨[⟨5, some "ann", some "Ann", none, none, none⟩], [],
         [⟨1, "SUMMER", some "s", false⟩], [⟨5, 1, none⟩], [], 1⟩
        5 ⟨some "Мужской", some 29, some (PFloat.val (mkRat 82 1)), some 4,
           none, none⟩
        [99] true "01.01.2026 10:00").2.length = 6 := by
  obtain ⟨det, _, _, h3, _⟩ :=
    finish_questionnaire_order
      ⟨[⟨5, some "ann", some "Ann", none, none, none⟩], [],
       [⟨1, "SUMMER", some "s", false⟩], [⟨5, 1, none⟩], [], 1⟩
      5 ⟨some "Мужской", some 29, some (PFloat.val (mkRat 82 1)), some 4,
         none, none⟩
      [99] "01.01.2026 10:00" ⟨5, some "ann", some "Ann", none, none, none⟩
      (by decide) (by decide)
  rw [h3]
  simp

/-- C8: `get_or_create_user` for an existing user id returns the stored
row with `created = false` and leaves the entire database — including the
stored `utm_source` / `utm_medium` / `utm_campaign` — unchanged, whatever
tags are passed in. -/
theorem get_or_create_user_existing (db : DB) (uid : Nat)
    (un fn s m c : Option String) (u : UserRow)
    (hu : db.users.find? (fun x => x.user_id == uid) = some u) :
    get_or_create_user db uid un fn s m c = (db, u, false) := by
  simp only [get_or_create_user, hu]

/-- Witness for C8: re-contacting an existing user with fresh attribution
tags changes nothing. -/
theorem get_or_create_user_existing_witness :
    get_or_create_user
        ⟨[⟨5, none, none, some "vk", none, none⟩], [], [], [], [], 1⟩
        5 (some "bob") (some "Bob") (some "tg") (some "cpc") (some "jan") =
      (⟨[⟨5, none, none, some "vk", none, none⟩], [], [], [], [], 1⟩,
       ⟨5, none, none, some "vk", none, none⟩, false) :=
  get_or_create_user_existing _ 5 (some "bob") (some "Bob") (some "tg")
    (some "cpc") (some "jan") ⟨5, none, none, some "vk", none, none⟩ (by decide)

/-- Every unreported questionnaire whose user exists appears in the
`get_new_questionnaires` result. -/
theorem get_new_questionnaires_mem (db : DB) (q : QRow)
    (hq : q ∈ db.questionnaires) (hns : q.sent_to_admin = false)
    (hu : (db.users.find? fun x => x.user_id == q.user_id).isSome = true) :
    ∃ dt ∈ get_new_questionnaires db, dt.row = q := by
  obtain ⟨u, hufind⟩ := Option.isSome_iff_exists.mp hu
  refine ⟨⟨q, u.username, u.first_name, codesFor db q.id⟩, ?_, rfl⟩
  simp only [get_new_questionnaires]
  apply List.mem_filterMap.mpr
  refine ⟨q, ?_, ?_⟩
  · rw [List.mem_reverse]
    refine List.mem_filter.mpr ⟨hq, ?_⟩
    rw [hns]
    rfl
  · rw [hufind]
    rfl

/-- `mark_questionnaires_sent` leaves every row reported when the id batch
covers all unreported rows. -/
theorem mark_all_sent (db : DB) (ids : List Nat)
    (hcov : ∀ q ∈ db.questionnaires, q.sent_to_admin = false → q.id ∈ ids) :
    ∀ q ∈ (mark_questionnaires_sent db ids).questionnaires,
      q.sent_to_admin = true := by
  intro q hq
  simp only [mark_questionnaires_sent] at hq
  obtain ⟨q0, hq0, heq⟩ := List.mem_map.mp hq
  by_cases hid : q0.id ∈ ids
  · rw [if_pos hid] at heq
    rw [← heq]
  · rw [if_neg hid] at heq
    rw [← heq]
    cases hs : q0.sent_to_admin
    · exact absurd (hcov q0 hq0 hs) hid
    · rfl

/-- The updated row of a marked questionnaire is in the marked table. -/
theorem mark_mem (db : DB) (ids : List Nat) (q : QRow)
    (hq : q ∈ db.questionnaires) (hid : q.id ∈ ids) :
    { q with sent_to_admin := true } ∈
      (mark_questionnaires_sent db ids).questionnaires := by
  simp only [mark_questionnaires_sent]
  refine List.mem_map.mpr ⟨q, hq, ?_⟩
  rw [if_pos hid]

/-- The sweep issues no notification when no operator ids are
configured. -/
theorem sweep_no_admins_no_notify (db : DB) (botSet : Bool) :
    (send_daily_questionnaires db [] botSet).2 = [] := by
  simp only [send_daily_questionnaires]
  by_cases h : get_new_questionnaires db = []
  · simp [h]
  · simp [h, notify_admins]

/-- C10: with an empty configured operator-id list, completing the flow
still marks the submission reported even though zero notifications are
sent, and likewise the daily sweep marks every fetched submission reported
while issuing zero notifications. -/
theorem empty_operators_still_reported (db : DB) (uid : Nat)
    (d : SessionData) (now : String) (u : UserRow)
    (hu : db.users.find? (fun x => x.user_id == uid) = some u)
    (hfresh : ∀ q ∈ db.questionnaires, q.id ≠ db.next_qid)
    (db2 : DB)
    (husers : ∀ q ∈ db2.questionnaires,
      (db2.users.find? fun x => x.user_id == q.user_id).isSome = true) :
    ((finish_questionnaire db uid d [] true now).2.all fun e => !e.isNotify) = true ∧
    (∃ q ∈ (finish_questionnaire db uid d [] true now).1.questionnaires,
      q.id = db.next_qid ∧ q.sent_to_admin = true) ∧
    (send_daily_questionnaires db2 [] true).2 = [] ∧
    (∀ q ∈ (send_daily_questionnaires db2 [] true).1.questionnaires,
      q.sent_to_admin = true) := by
  obtain ⟨det, _, _, h3⟩ :=
    finish_questionnaire_shape db uid d [] now u hu hfresh
  refine ⟨?_, ?_, sweep_no_admins_no_notify db2 true, ?_⟩
  · rw [h3]
    simp [Event.isNotify]
  · rw [h3]
    refine ⟨⟨db.next_qid, uid, d.gender, d.age, d.weight, d.workouts_per_week,
             d.diet, d.problem_or_injury, some now, true⟩, ?_, rfl, rfl⟩
    have hmem : (⟨db.next_qid, uid, d.gender, d.age, d.weight,
        d.workouts_per_week, d.diet, d.problem_or_injury, some now,
        false⟩ : QRow) ∈
        (attachDB (create_questionnaire db uid d now).1 uid
          db.next_qid).1.questionnaires := by
      show _ ∈ db.questionnaires ++ [_]
      exact List.mem_append_right _ (List.mem_singleton_self _)
    exact mark_mem _ [db.next_qid] _ hmem (List.mem_singleton_self _)
  · by_cases hqs : get_new_questionnaires db2 = []
    · simp only [send_daily_questionnaires, hqs, if_pos]
      intro q hq
      cases hs : q.sent_to_admin
      · obtain ⟨dt, hdt, _⟩ :=
          get_new_questionnaires_mem db2 q hq hs (husers q hq)
        rw [hqs] at hdt
        exact absurd hdt (List.not_mem_nil dt)
      · rfl
    · have hids : (get_new_questionnaires db2).map (fun dt => dt.row.id) ≠ [] := by
        intro hnil
        exact hqs (List.map_eq_nil_iff.mp hnil)
      simp only [send_daily_questionnaires, if_neg hqs, if_neg hids]
      apply mark_all_sent
      intro q hq hns
      obtain ⟨dt, hdt, hrow⟩ :=
        get_new_questionnaires_mem db2 q hq hns (husers q hq)
      exact List.mem_map.mpr ⟨dt, hdt, by rw [hrow]⟩

/-- Witness for C10: completing the flow with no operators configured
produces a trace without a single notification event. -/
theorem empty_operators_still_reported_witness :
    ((finish_questionnaire ⟨[⟨5, none, none, none, none, none⟩], [], [], [],
        [], 1⟩ 5 ⟨none, none, none, none, none, none⟩ [] true "t").2.all
      fun e => !e.isNotify) = true :=
  (empty_operators_still_reported
    ⟨[⟨5, none, none, none, none, none⟩], [], [], [], [], 1⟩ 5
    ⟨none, none, none, none, none, none⟩ "t" ⟨5, none, none, none, none, none⟩
    (by decide) (by decide) ⟨[], [], [], [], [], 1⟩ (by decide)).1

/-- C7: the sweep fetches every unreported submission (with its user and
codes), notifies every configured operator about each of them, and marks
the whole fetched batch reported in one update; with zero pending
submissions it is a no-op, and in the concrete two-submissions /
one-operator scenario it issues exactly two notifications and leaves both
rows reported. -/
theorem sweep_characterisation :
    (∀ (db : DB) (admins : List Nat) (botSet : Bool),
      get_new_questionnaires db = [] →
      send_daily_questionnaires db admins botSet = (db, [])) ∧
    (∀ (db : DB) (admins : List Nat),
      (send_daily_questionnaires db admins true).2 =
        (get_new_questionnaires db).flatMap
          fun dt => admins.map fun a =>
            Event.notify a (build_questionnaire_text dt)) ∧
    (∀ (db : DB) (q : QRow), q ∈ db.questionnaires → q.sent_to_admin = false →
      (db.users.find? fun x => x.user_id == q.user_id).isSome = true →
      ∃ dt ∈ get_new_questionnaires db, dt.row = q) ∧
    (∀ (db : DB) (admins : List Nat),
      (∀ q ∈ db.questionnaires,
        (db.users.find? fun x => x.user_id == q.user_id).isSome = true) →
      ∀ q ∈ (send_daily_questionnaires db admins true).1.questionnaires,
        q.sent_to_admin = true) ∧
    ((send_daily_questionnaires
        ⟨[⟨5, none, none, none, none, none⟩],
         [⟨1, 5, none, none, none, none, none, none, none, false⟩,
          ⟨2, 5, none, none, none, none, none, none, none, false⟩],
         [], [], [], 3⟩ [99] true).2.length = 2 ∧
      ∀ q ∈ (send_daily_questionnaires
        ⟨[⟨5, none, none, none, none, none⟩],
         [⟨1, 5, none, none, none, none, none, none, none, false⟩,
          ⟨2, 5, none, none, none, none, none, none, none, false⟩],
         [], [], [], 3⟩ [99] true).1.questionnaires,
        q.sent_to_admin = true) := by
  refine ⟨?_, ?_, ?_, ?_, by decide, by decide⟩
  · intro db admins botSet h
    simp [send_daily_questionnaires, h]
  · intro db admins
    by_cases h : get_new_questionnaires db = []
    · simp [send_daily_questionnaires, h]
    · simp only [send_daily_questionnaires, if_neg h]
      simp only [notify_admins_eq_map]
  · intro db q hq hns hu
    exact get_new_questionnaires_mem db q hq hns hu
  · intro db admins husers
    by_cases hqs : get_new_questionnaires db = []
    · simp only [send_daily_questionnaires, hqs, if_pos]
      intro q hq
      cases hs : q.sent_to_admin
      · obtain ⟨dt, hdt, _⟩ :=
          get_new_questionnaires_mem db q hq hs (husers q hq)
        rw [hqs] at hdt
        exact absurd hdt (List.not_mem_nil dt)
      · rfl
    · have hids : (get_new_questionnaires db).map (fun dt => dt.row.id) ≠ [] := by
        intro hnil
        exact hqs (List.map_eq_nil_iff.mp hnil)
      simp only [send_daily_questionnaires, if_neg hqs, if_neg hids]
      apply mark_all_sent
      intro q hq hns
      obtain ⟨dt, hdt, hrow⟩ :=
        get_new_questionnaires_mem db q hq hns (husers q hq)
      exact List.mem_map.mpr ⟨dt, hdt, by rw [hrow]⟩

/-- Witness for C7: the sweep on an empty database is a no-op. -/
theorem sweep_characterisation_witness :
    send_daily_questionnaires ⟨[], [], [], [], [], 1⟩ [7] true =
      (⟨[], [], [], [], [], 1⟩, []) :=
  sweep_characterisation.1 ⟨[], [], [], [], [], 1⟩ [7] true (by decide)

end Fitness
